import Mathlib

/-!
Verification of the UDOO wiring layer (`src/src/wiring/udoo.c`).

The C file implements Arduino-style pin I/O on top of GPIO / ADC / clock
capabilities.  We shallow-embed each function:

* pure arithmetic (`mapResolution`, the `usleep` argument of `delay`,
  `micros` / `milis`) becomes a Lean function on `Nat` / `Int`, with an
  explicit `% 2 ^ 32` wherever 32-bit unsigned overflow matters;
* functions whose observable behaviour is a sequence of calls into the
  hardware capabilities (`pinMode`, `analogRead`, `shiftOut`) return the
  list of capability calls they perform (an `Event` trace) together with
  their return value;
* values supplied by the hardware (ADC status reads, the latest converted
  value, the level sampled on a data pin) are oracles passed in as
  function arguments, and the unbounded ADC polling loop is run on fuel,
  returning `none` when the data-ready bit never appears within the fuel.

Constants defined in headers that are not part of the source under
verification (`wiring.h`, `udooConfig.h`, the Atmel chip headers) are
either parameters of the embedding (the pin/channel table, `A0`, `CANTX`,
`ADC_ISR_DRDY`, `ADC_RESOLUTION`, `NOT_ANALOG_PIN_ERROR`) or constants
modelled from the spec, and each such constant is marked as modelled.
-/

/-- One call into a hardware capability or the diagnostic sink, as issued
by the wiring layer.  `debugMsg` is a call to the diagnostic sink (the
`debug(...)` logging macro); the `gpio...` events are the GPIO capability
calls and the `adc...` events the ADC capability calls. -/
inductive Event where
  | debugMsg
  | gpioExport (pin : Int)
  | gpioSetDirInput (pin : Int)
  | gpioSetDirOutput (pin : Int)
  | gpioSetValue (pin : Int) (value : Int)
  | gpioGetValue (pin : Int)
  | adcEnableChannel (ch : Nat)
  | adcStart
  | adcGetStatus
  | adcGetLatestValue
  | adcDisableChannel (ch : Nat)
deriving DecidableEq, Repr

/-- Whether an event is a call into the ADC capability. -/
def Event.isAdc : Event → Bool
  | .adcEnableChannel _ => true
  | .adcStart => true
  | .adcGetStatus => true
  | .adcGetLatestValue => true
  | .adcDisableChannel _ => true
  | _ => false

/-- Whether an event is a call into the GPIO capability. -/
def Event.isGpio : Event → Bool
  | .gpioExport _ => true
  | .gpioSetDirInput _ => true
  | .gpioSetDirOutput _ => true
  | .gpioSetValue _ _ => true
  | .gpioGetValue _ => true
  | _ => false

/-- Modelled from the spec: `INPUT`, from the missing `wiring.h`.  The spec
describes `PinMode` as the enumeration {Input, Output}; the concrete value
follows the Arduino convention and no claim depends on it. -/
def INPUT : Int := 0

/-- Modelled from the spec: `OUTPUT`, from the missing `wiring.h`. -/
def OUTPUT : Int := 1

/-- Modelled from the spec: `LOW`, from the missing `wiring.h` (`LogicLevel`
enumeration {Low, High}). -/
def LOW : Int := 0

/-- Modelled from the spec: `HIGH`, from the missing `wiring.h`. -/
def HIGH : Int := 1

/-- Modelled from the spec: `LSBFIRST`, from the missing `wiring.h`
(`BitOrder` enumeration).  The code only ever compares a bit order for
equality with `LSBFIRST`, so only `MSBFIRST ≠ LSBFIRST` matters. -/
def LSBFIRST : Nat := 0

/-- Modelled from the spec: `MSBFIRST`, from the missing `wiring.h`. -/
def MSBFIRST : Nat := 1

/-- Modelled from the spec: `AR_DEFAULT`, the board-standard analog
reference, initial value of the global `analog_reference`. -/
def AR_DEFAULT : Nat := 0

/-- `pinMode (pin, mode)` from udoo.c: rejects a mode other than `INPUT` or
`OUTPUT` with a diagnostic message and no GPIO call; otherwise exports the
pin's GPIO and then sets its direction.  The result is the trace of
capability calls performed. -/
def pinMode (pin mode : Int) : List Event :=
  if mode ≠ INPUT ∧ mode ≠ OUTPUT then
    [Event.debugMsg]
  else
    [Event.gpioExport pin] ++
      (if mode = INPUT then [Event.gpioSetDirInput pin]
       else [Event.gpioSetDirOutput pin])

/-- `digitalWrite (pin, value)` from udoo.c: a single unconditional
`gpioSetValue` call. -/
def digitalWrite (pin value : Int) : List Event :=
  [Event.gpioSetValue pin value]

/-- The global `_readResolution` from udoo.c (10-bit read resolution). -/
def _readResolution : Nat := 10

/-- The global `_writeResolution` from udoo.c (8-bit write resolution). -/
def _writeResolution : Nat := 8

/-- `mapResolution (value, from, to)` from udoo.c, on `uint32_t`: identity
when the widths agree, right shift when narrowing, left shift when
widening.  The left shift is taken modulo `2 ^ 32`, the wrap-around of the
`uint32_t` return value. -/
def mapResolution (value fromBits toBits : Nat) : Nat :=
  if fromBits = toBits then value
  else if fromBits > toBits then value >>> (fromBits - toBits)
  else (value <<< (toBits - fromBits)) % 2 ^ 32

/-- `analogReference (arefMode)` from udoo.c: the new value of the global
`analog_reference` after the call (the call simply stores its argument). -/
def analogReference (arefMode : Nat) : Nat := arefMode

/-- The constants of the analog subsystem that live in the missing
`udooConfig.h` and Atmel chip headers, as parameters of the embedding:
the analog pin range `[A0, CANTX]`, the pin → ADC-channel-number table
(`analogPin[pin].ADCChannelNumber`), the pin → analog-channel table
(`analogPin[pin].analogChannel`), membership of an analog channel in the
standard 12-bit set handled by the `switch` cases `ADC0..ADC5, ADC7..ADC11`
(`isStd`), the data-ready mask `ADC_ISR_DRDY`, the native converter width
`ADC_RESOLUTION`, and the out-of-range sentinel `NOT_ANALOG_PIN_ERROR`. -/
structure AdcConfig where
  A0 : Nat
  CANTX : Nat
  channelOf : Nat → Nat
  analogChannelOf : Nat → Nat
  isStd : Nat → Bool
  DRDY : Nat
  ADC_RESOLUTION : Nat
  NOT_ANALOG_PIN_ERROR : Nat

/-- The values the ADC hardware supplies during one `analogRead` call:
`status k` is the value returned by the `(k+1)`-th `adc_get_status` read,
and `latest` the value returned by `adc_get_latest_value`. -/
structure AdcOracle where
  status : Nat → Nat
  latest : Nat

/-- The `while ((adc_get_status(ADC) & ADC_ISR_DRDY) != ADC_ISR_DRDY);`
loop of `analogRead`, run on fuel: starting with the `k`-th status read,
returns the total number of status reads performed once a read has the
data-ready bits set, or `none` if this does not happen within the fuel. -/
def pollWait (DRDY : Nat) (status : Nat → Nat) (k : Nat) : Nat → Option Nat
  | 0 => none
  | fuel + 1 =>
    if status k &&& DRDY = DRDY then some (k + 1)
    else pollWait DRDY status (k + 1) fuel

/-- `analogRead (myPin)` from udoo.c.  `analog_reference` is the value of
the process-wide global of the same name at call time (the C function can
read it; passing it explicitly makes any dependence visible).  Returns the
function's return value together with the trace of capability calls, or
`none` when the data-ready polling loop exceeds the fuel (the C loop would
still be spinning). -/
def analogRead (analog_reference : Nat) (cfg : AdcConfig) (orc : AdcOracle)
    (fuel : Nat) (myPin : Nat) : Option (Nat × List Event) :=
  if myPin < cfg.A0 ∨ myPin > cfg.CANTX then
    some (cfg.NOT_ANALOG_PIN_ERROR, [Event.debugMsg])
  else
    let myPinChannel := cfg.channelOf myPin
    if cfg.isStd (cfg.analogChannelOf myPin) then
      match pollWait cfg.DRDY orc.status 0 fuel with
      | none => none
      | some polls =>
        some (mapResolution orc.latest cfg.ADC_RESOLUTION _readResolution,
          [Event.adcEnableChannel myPinChannel, Event.adcStart]
            ++ List.replicate polls Event.adcGetStatus
            ++ [Event.adcGetLatestValue, Event.adcDisableChannel myPinChannel])
    else
      some (0, [])

/-- The C `!!` double negation: 0 stays 0, anything else becomes 1. -/
def bang (x : Nat) : Nat := if x = 0 then 0 else 1

/-- The level `shiftOut` writes to the data pin on iteration `i`:
`!!(val & (1 << i))` for `LSBFIRST`, `!!(val & (1 << (7 - i)))`
otherwise. -/
def shiftOutDataBit (bitOrder val i : Nat) : Nat :=
  if bitOrder = LSBFIRST then bang (val &&& (1 <<< i))
  else bang (val &&& (1 <<< (7 - i)))

/-- `shiftOut (dataPin, clockPin, bitOrder, val)` from udoo.c: for each of
the 8 iterations, write the selected bit of `val` to the data pin, then
pulse the clock pin high then low.  The result is the trace of GPIO
calls. -/
def shiftOut (dataPin clockPin : Int) (bitOrder val : Nat) : List Event :=
  (List.range 8).foldl
    (fun tr i =>
      tr ++ digitalWrite dataPin (Int.ofNat (shiftOutDataBit bitOrder val i))
         ++ digitalWrite clockPin HIGH ++ digitalWrite clockPin LOW)
    []

/-- `shiftIn (dataPin, clockPin, bitOrder)` from udoo.c, as a function of
the read oracle: `read i` is the level `digitalRead(dataPin)` returns on
iteration `i`, sampled while the clock is high.  The accumulator is a
`uint8_t`, hence the `% 256` on each `|=`. -/
def shiftIn (read : Nat → Nat) (bitOrder : Nat) : Nat :=
  (List.range 8).foldl
    (fun value i =>
      (value ||| (read i <<< (if bitOrder = LSBFIRST then i else 7 - i))) % 256)
    0

/-- The argument `delay (ms)` from udoo.c passes to `usleep`: `ms * 1000`
computed in `unsigned int` (32-bit) arithmetic, so it wraps modulo
`2 ^ 32`. -/
def delay (ms : Nat) : Nat := ms * 1000 % 2 ^ 32

/-- Modelled from the spec: `CLOCK_TIME_ERROR`, the clock-failure sentinel
from the missing `udooConfig.h` ("fails with a distinct sentinel/error
value if the underlying clock read fails"); no claim depends on its
value. -/
def CLOCK_TIME_ERROR : Nat := 2 ^ 32 - 1

/-- The `struct timespec` filled in by `clock_gettime`. -/
structure Timespec where
  tv_sec : Int
  tv_nsec : Int

/-- `micros ()` from udoo.c as a function of the clock capability's answer:
`ret` is `clock_gettime`'s return value and `tm` the timespec it filled in.
On failure (`ret == -1`) the sentinel is returned; otherwise
`tv_sec * 1000000 + tv_nsec / 1000` cast to the 32-bit `unsigned long` of
the ARM target (truncating C division, wrap modulo `2 ^ 32`). -/
def micros (ret : Int) (tm : Timespec) : Nat :=
  if ret = -1 then CLOCK_TIME_ERROR
  else ((tm.tv_sec * 1000000 + tm.tv_nsec.tdiv 1000) % (2 ^ 32 : Int)).toNat

/-- `milis ()` from udoo.c: `micros () / 1000`, on the same clock answer. -/
def milis (ret : Int) (tm : Timespec) : Nat := micros ret tm / 1000

/-- The values written to pin `p` in a trace, in order (the levels a device
wired to `p` observes). -/
def dataWrites (p : Int) (tr : List Event) : List Int :=
  tr.filterMap (fun e =>
    match e with
    | Event.gpioSetValue q v => if q = p then some v else none
    | _ => none)

/-- A concrete analog configuration for witnesses: pins 0..5 are analog,
every pin maps to ADC channel number 3 and analog channel 7, channel 7 is
in the standard 12-bit set, data-ready mask 1, native width 12, sentinel
99. -/
def cfgW : AdcConfig :=
  ⟨0, 5, fun _ => 3, fun _ => 7, fun chan => chan == 7, 1, 12, 99⟩

/-- Like `cfgW` but every pin's analog channel (6) is outside the standard
12-bit set. -/
def cfgW2 : AdcConfig :=
  ⟨0, 5, fun _ => 3, fun _ => 6, fun chan => chan == 7, 1, 12, 99⟩

/-- A concrete ADC oracle for witnesses: every status read has the
data-ready bit set, and the converted value is 4095. -/
def orcW : AdcOracle := ⟨fun _ => 1, 4095⟩

/-- A successful `pollWait` has performed at least one status read. -/
theorem pollWait_ge_one (D : Nat) (s : Nat → Nat) (fuel k polls : Nat)
    (h : pollWait D s k fuel = some polls) : 1 ≤ polls := by
  induction fuel generalizing k with
  | zero => simp [pollWait] at h
  | succ n ih =>
    simp only [pollWait] at h
    split at h
    · simp at h
      omega
    · exact ih (k + 1) h

/-- When the data pin differs from the clock pin, the levels `shiftOut`
drives onto the data pin are exactly the bits `shiftOutDataBit` selects,
for iterations 0 through 7 in order. -/
theorem shiftOut_dataWrites (d c : Int) (hdc : d ≠ c) (bitOrder val : Nat) :
    dataWrites d (shiftOut d c bitOrder val) =
      (List.range 8).map (fun i => Int.ofNat (shiftOutDataBit bitOrder val i)) := by
  have hcd : c ≠ d := Ne.symm hdc
  have hr : List.range 8 = [0, 1, 2, 3, 4, 5, 6, 7] := rfl
  simp [shiftOut, dataWrites, digitalWrite, HIGH, LOW, hr, hcd]

/-- C1: mapResolution returns value unchanged when fromBits = toBits,
the value right-shifted by fromBits - toBits (division by that power of
two) when fromBits > toBits, and the value left-shifted by
toBits - fromBits (multiplication by that power of two, modulo the
uint32_t wrap) when fromBits < toBits; it is a total function with no
failure mode. -/
theorem mapResolution_spec (value fromBits toBits : Nat) :
    (fromBits = toBits → mapResolution value fromBits toBits = value) ∧
    (fromBits > toBits →
      mapResolution value fromBits toBits = value / 2 ^ (fromBits - toBits)) ∧
    (fromBits < toBits →
      mapResolution value fromBits toBits =
        value * 2 ^ (toBits - fromBits) % 2 ^ 32) := by
  refine ⟨fun h => ?_, fun h => ?_, fun h => ?_⟩
  · simp [mapResolution, h]
  · rw [mapResolution, if_neg (by omega), if_pos h, Nat.shiftRight_eq_div_pow]
  · rw [mapResolution, if_neg (by omega), if_neg (by omega), Nat.shiftLeft_eq]

/-- Witness for C1: concrete instances of all three branches. -/
theorem mapResolution_spec_witness :
    (mapResolution 777 10 10 = 777) ∧
    (mapResolution 4095 12 10 = 4095 / 2 ^ 2) ∧
    (mapResolution 1023 10 12 = 1023 * 2 ^ 2 % 2 ^ 32) :=
  ⟨(mapResolution_spec 777 10 10).1 rfl,
   (mapResolution_spec 4095 12 10).2.1 (by decide),
   (mapResolution_spec 1023 10 12).2.2 (by decide)⟩

set_option maxRecDepth 8192 in
/-- C2: for every byte and for each BitOrder used identically on both
sides, shifting the byte out and shifting it back in over a looped-back
data line (each level driven onto the data pin by shiftOut is the level
shiftIn samples on the corresponding clock pulse) reproduces the byte:
the data-pin levels of shiftOut's trace are exactly the shiftOutDataBit
values, and shiftIn reassembles them into the original byte. -/
theorem shift_loopback (d c : Int) (hdc : d ≠ c) (val : Nat) (hval : val < 256) :
    dataWrites d (shiftOut d c LSBFIRST val) =
      (List.range 8).map (fun i => Int.ofNat (shiftOutDataBit LSBFIRST val i)) ∧
    dataWrites d (shiftOut d c MSBFIRST val) =
      (List.range 8).map (fun i => Int.ofNat (shiftOutDataBit MSBFIRST val i)) ∧
    shiftIn (shiftOutDataBit LSBFIRST val) LSBFIRST = val ∧
    shiftIn (shiftOutDataBit MSBFIRST val) MSBFIRST = val := by
  refine ⟨shiftOut_dataWrites d c hdc LSBFIRST val,
          shiftOut_dataWrites d c hdc MSBFIRST val, ?_, ?_⟩
  · exact (by decide :
      ∀ v < 256, shiftIn (shiftOutDataBit LSBFIRST v) LSBFIRST = v) val hval
  · exact (by decide :
      ∀ v < 256, shiftIn (shiftOutDataBit MSBFIRST v) MSBFIRST = v) val hval

/-- Witness for C2: the loop-back round trip at data pin 3, clock pin 4,
byte 165. -/
theorem shift_loopback_witness :
    dataWrites 3 (shiftOut 3 4 LSBFIRST 165) =
      (List.range 8).map (fun i => Int.ofNat (shiftOutDataBit LSBFIRST 165 i)) ∧
    dataWrites 3 (shiftOut 3 4 MSBFIRST 165) =
      (List.range 8).map (fun i => Int.ofNat (shiftOutDataBit MSBFIRST 165 i)) ∧
    shiftIn (shiftOutDataBit LSBFIRST 165) LSBFIRST = 165 ∧
    shiftIn (shiftOutDataBit MSBFIRST 165) MSBFIRST = 165 :=
  shift_loopback 3 4 (by decide) 165 (by decide)

/-- C3: for an in-range analog pin whose channel is in the standard
12-bit set, analogRead performs exactly one channel enable, one
conversion start, one or more status polls, one value read and one
channel disable, in that order (so the channel is not left enabled), and
returns the read value passed through mapResolution from the converter's
native width to the configured read resolution. -/
theorem analogRead_std_spec (ar : Nat) (cfg : AdcConfig) (orc : AdcOracle)
    (fuel pin polls : Nat)
    (h1 : cfg.A0 ≤ pin) (h2 : pin ≤ cfg.CANTX)
    (h3 : cfg.isStd (cfg.analogChannelOf pin) = true)
    (h4 : pollWait cfg.DRDY orc.status 0 fuel = some polls) :
    analogRead ar cfg orc fuel pin =
      some (mapResolution orc.latest cfg.ADC_RESOLUTION _readResolution,
        [Event.adcEnableChannel (cfg.channelOf pin), Event.adcStart]
          ++ List.replicate polls Event.adcGetStatus
          ++ [Event.adcGetLatestValue, Event.adcDisableChannel (cfg.channelOf pin)]) ∧
    1 ≤ polls := by
  have hcond : ¬(pin < cfg.A0 ∨ pin > cfg.CANTX) := by omega
  exact ⟨by simp [analogRead, hcond, h3, h4], pollWait_ge_one _ _ _ _ _ h4⟩

/-- Witness for C3: a conversion on pin 2 of the concrete configuration,
ready on the first status read. -/
theorem analogRead_std_spec_witness :
    analogRead AR_DEFAULT cfgW orcW 1 2 =
      some (mapResolution 4095 12 10,
        [Event.adcEnableChannel 3, Event.adcStart]
          ++ List.replicate 1 Event.adcGetStatus
          ++ [Event.adcGetLatestValue, Event.adcDisableChannel 3]) ∧
    1 ≤ 1 :=
  analogRead_std_spec AR_DEFAULT cfgW orcW 1 2 1
    (by decide) (by decide) (by decide) (by decide)

/-- C4: for a pin below A0 or above CANTX, analogRead returns the
out-of-range sentinel NOT_ANALOG_PIN_ERROR after a single diagnostic
message, and its trace contains no ADC capability call. -/
theorem analogRead_out_of_range (ar : Nat) (cfg : AdcConfig) (orc : AdcOracle)
    (fuel pin : Nat) (h : pin < cfg.A0 ∨ pin > cfg.CANTX) :
    analogRead ar cfg orc fuel pin =
      some (cfg.NOT_ANALOG_PIN_ERROR, [Event.debugMsg]) ∧
    List.filter Event.isAdc [Event.debugMsg] = [] :=
  ⟨by simp [analogRead, h], by decide⟩

/-- Witness for C4: pin 9 is above CANTX = 5 in the concrete
configuration. -/
theorem analogRead_out_of_range_witness :
    analogRead AR_DEFAULT cfgW orcW 1 9 = some (99, [Event.debugMsg]) ∧
    List.filter Event.isAdc [Event.debugMsg] = [] :=
  analogRead_out_of_range AR_DEFAULT cfgW orcW 1 9 (by decide)

/-- C5: for an in-range analog pin whose channel is not in the standard
12-bit set, analogRead returns 0 with an empty trace: the default branch
issues no ADC capability call. -/
theorem analogRead_non_std (ar : Nat) (cfg : AdcConfig) (orc : AdcOracle)
    (fuel pin : Nat)
    (h1 : cfg.A0 ≤ pin) (h2 : pin ≤ cfg.CANTX)
    (h3 : cfg.isStd (cfg.analogChannelOf pin) = false) :
    analogRead ar cfg orc fuel pin = some (0, []) := by
  have hcond : ¬(pin < cfg.A0 ∨ pin > cfg.CANTX) := by omega
  simp [analogRead, hcond, h3]

/-- Witness for C5: pin 2 of the configuration whose channels are outside
the standard set. -/
theorem analogRead_non_std_witness :
    analogRead AR_DEFAULT cfgW2 orcW 1 2 = some (0, []) :=
  analogRead_non_std AR_DEFAULT cfgW2 orcW 1 2 (by decide) (by decide) (by decide)

/-- C6: pinMode with a mode outside INPUT/OUTPUT only reports via the
diagnostic sink and performs no GPIO call; with INPUT it exports the pin
then sets direction input; with OUTPUT it exports then sets direction
output. -/
theorem pinMode_spec (pin mode : Int) :
    (mode ≠ INPUT → mode ≠ OUTPUT →
      pinMode pin mode = [Event.debugMsg] ∧
      (pinMode pin mode).filter Event.isGpio = []) ∧
    (mode = INPUT →
      pinMode pin mode = [Event.gpioExport pin, Event.gpioSetDirInput pin]) ∧
    (mode = OUTPUT →
      pinMode pin mode = [Event.gpioExport pin, Event.gpioSetDirOutput pin]) := by
  refine ⟨fun h1 h2 => ?_, fun h => ?_, fun h => ?_⟩
  · have he : pinMode pin mode = [Event.debugMsg] := by simp [pinMode, h1, h2]
    exact ⟨he, by rw [he]; rfl⟩
  · simp [pinMode, h, INPUT, OUTPUT]
  · simp [pinMode, h, INPUT, OUTPUT]

/-- Witness for C6: mode 5 is rejected without a GPIO call. -/
theorem pinMode_spec_witness :
    pinMode 3 5 = [Event.debugMsg] ∧
    (pinMode 3 5).filter Event.isGpio = [] :=
  (pinMode_spec 3 5).1 (by decide) (by decide)

/-- C7: on a successful clock read, milis is exactly micros divided by
1000 with truncating integer division. -/
theorem milis_spec (ret : Int) (tm : Timespec) (h : ret ≠ -1) :
    milis ret tm = micros ret tm / 1000 := rfl

/-- Witness for C7: a successful clock read at 5 s, 123456 ns. -/
theorem milis_spec_witness :
    milis 0 ⟨5, 123456⟩ = micros 0 ⟨5, 123456⟩ / 1000 :=
  milis_spec 0 ⟨5, 123456⟩ (by decide)

/-- C8 counterexample: on a conversion on pin 2 of the concrete
configuration, changing the process-wide analog reference from AR_DEFAULT
to the distinct value 1 changes neither analogRead's result nor its
capability-call trace, so the AnalogReference value at call time is not
an input of analogRead's behavior (it is never read during the call). -/
theorem analogRead_reference_counterexample :
    analogReference 1 ≠ AR_DEFAULT ∧
    analogRead AR_DEFAULT cfgW orcW 1 2 = analogRead 1 cfgW orcW 1 2 :=
  ⟨by decide, rfl⟩

/-- C8 amended: analogReference stores the setting into the global, but
analogRead never reads it: for any two reference values, analogRead's
result and capability-call trace are identical. -/
theorem analogRead_independent_of_reference (r r' : Nat) (cfg : AdcConfig)
    (orc : AdcOracle) (fuel pin : Nat) :
    analogRead r cfg orc fuel pin = analogRead r' cfg orc fuel pin := rfl

/-- C9: for any bit-order value other than LSBFIRST, including values
outside the enumeration, shiftIn and shiftOut behave exactly as for
MSBFIRST; the argument is never validated and no diagnostic is issued. -/
theorem shift_bitOrder_unvalidated (bitOrder : Nat) (h : bitOrder ≠ LSBFIRST) :
    (∀ read : Nat → Nat, shiftIn read bitOrder = shiftIn read MSBFIRST) ∧
    (∀ (d c : Int) (val : Nat),
      shiftOut d c bitOrder val = shiftOut d c MSBFIRST val) := by
  have h0 : ¬ bitOrder = 0 := h
  constructor
  · intro read
    simp [shiftIn, LSBFIRST, MSBFIRST, h0]
  · intro d c val
    simp [shiftOut, shiftOutDataBit, LSBFIRST, MSBFIRST, h0]

/-- Witness for C9: bit order 2 (outside the enumeration) behaves as
MSBFIRST on a concrete read oracle and a concrete shift-out. -/
theorem shift_bitOrder_unvalidated_witness :
    shiftIn (fun _ => 1) 2 = shiftIn (fun _ => 1) MSBFIRST ∧
    shiftOut 3 4 2 170 = shiftOut 3 4 MSBFIRST 170 :=
  ⟨(shift_bitOrder_unvalidated 2 (by decide)).1 (fun _ => 1),
   (shift_bitOrder_unvalidated 2 (by decide)).2 3 4 170⟩

/-- C10: for every ms greater than 4294967, the unsigned 32-bit product
ms * 1000 wraps modulo 2^32, so the microsecond duration delay passes to
usleep differs from ms * 1000 and the requested sleep is shorter than ms
milliseconds. -/
theorem delay_overflow (ms : Nat) (h : 4294967 < ms) :
    delay ms ≠ ms * 1000 ∧ delay ms < ms * 1000 := by
  have h32 : (2 : Nat) ^ 32 = 4294967296 := by norm_num
  simp only [delay, h32]
  omega

/-- Witness for C10: ms = 5000000 wraps. -/
theorem delay_overflow_witness :
    delay 5000000 ≠ 5000000 * 1000 ∧ delay 5000000 < 5000000 * 1000 :=
  delay_overflow 5000000 (by decide)
